import Mathlib

/-!
Verification of the real-time object detection pipeline against its
natural-language specification.

The development shallowly embeds the parts of the program that the claims
are about:

* `KLV` — the MISB ST 0601 KLV decoder (`src/modules/klv.py`), a byte-level
  TLV parser over `List Nat` (each entry one byte), with the per-tag scaled
  integer semantics.  Machine integers are modelled as `Nat`/`Int` with
  explicit two complement conversion; scaled values live in `ℚ`.
* `Pipeline` — the queue hand-off operations of the three-stage pipeline
  (`src/core/pipeline.py`).
* `SSE` — the subscriber bookkeeping of the SSE broadcaster
  (`src/modules/sse.py`).
* `TAK` — the per-item rate limiting handler and the CoT message builder of
  the tactical dispatcher (`src/modules/tak.py`).
* `Geo` — the photogrammetric georeferencer (`src/modules/geo.py`) over `ℝ`.
-/

namespace KLV

/-- Big-endian interpretation of a list of bytes, mirroring
`struct.unpack` of unsigned big-endian integers. -/
def beToNat (bs : List Nat) : Nat :=
  bs.foldl (fun a b => a * 256 + b) 0

/-- Two complement reading of a `w`-byte unsigned value, mirroring
`struct.unpack` of signed big-endian integers. -/
def toSigned (w : Nat) (n : Nat) : Int :=
  if n < 2 ^ (8 * w - 1) then (n : Int) else (n : Int) - 2 ^ (8 * w)

/-- Big-endian encoding of `n` into exactly `w` bytes (low bytes last). -/
def natToBE : Nat → Nat → List Nat
  | 0, _ => []
  | w + 1, n => natToBE w (n / 256) ++ [n % 256]

/-- The telemetry record produced by `KLVDecoder.decode`: a mapping from the
recognized fields to scalars, every field optional.  Scaled integer fields are
exact rationals.  The three camera-specification tags (102/103/104) carry an
IEEE 754 binary32 payload; the record stores the raw 32-bit pattern (as a
rational integer) — interpreting the pattern as a binary32 numeral is a
presentation concern that no claim about the decoder depends on. -/
structure Telemetry where
  timestamp_us : Option ℚ := none
  roll : Option ℚ := none
  pitch : Option ℚ := none
  heading : Option ℚ := none
  latitude : Option ℚ := none
  longitude : Option ℚ := none
  altitude : Option ℚ := none
  sensor_h_fov : Option ℚ := none
  sensor_v_fov : Option ℚ := none
  gimbal_roll_rel : Option ℚ := none
  gimbal_pitch_rel : Option ℚ := none
  gimbal_yaw_rel : Option ℚ := none
  sensor_width_mm : Option ℚ := none
  sensor_height_mm : Option ℚ := none
  focal_length_mm : Option ℚ := none
  gimbal_yaw_abs : Option ℚ := none
  gimbal_pitch_abs : Option ℚ := none
  gimbal_roll_abs : Option ℚ := none
  deriving Repr, DecidableEq

/-- The tags the decoder recognizes (`KLVDecoder.decode`, the `if tag == …`
chain). -/
def knownTags : List Nat :=
  [2, 5, 6, 7, 13, 14, 15, 18, 19, 21, 22, 23, 102, 103, 104, 105, 106, 107]

/-- Declared payload width in bytes of each known tag (the `item_length == …`
guards in `KLVDecoder.decode`); `0` for unknown tags. -/
def tagWidth (t : Nat) : Nat :=
  match t with
  | 2 => 8
  | 5 => 2
  | 6 => 2
  | 7 => 2
  | 13 => 4
  | 14 => 4
  | 15 => 2
  | 18 => 2
  | 19 => 2
  | 21 => 4
  | 22 => 4
  | 23 => 4
  | 102 => 4
  | 103 => 4
  | 104 => 4
  | 105 => 4
  | 106 => 4
  | 107 => 4
  | _ => 0

/-- One iteration body of the local-set item loop of `KLVDecoder.decode`:
given a tag, its declared item length and the value bytes, set the matching
field (scaled as in the source) when the length equals the declared width of
the tag, otherwise leave the record unchanged. -/
def applyTag (tag len : Nat) (v : List Nat) (acc : Telemetry) : Telemetry :=
  match tag with
  | 2 => if len = 8 then { acc with timestamp_us := some (beToNat v : ℚ) } else acc
  | 5 => if len = 2 then { acc with roll := some ((toSigned 2 (beToNat v) : ℚ) / 100) } else acc
  | 6 => if len = 2 then { acc with pitch := some ((toSigned 2 (beToNat v) : ℚ) / 100) } else acc
  | 7 => if len = 2 then { acc with heading := some ((beToNat v : ℚ) / 100) } else acc
  | 13 => if len = 4 then { acc with latitude := some ((toSigned 4 (beToNat v) : ℚ) / 10000000) } else acc
  | 14 => if len = 4 then { acc with longitude := some ((toSigned 4 (beToNat v) : ℚ) / 10000000) } else acc
  | 15 => if len = 2 then { acc with altitude := some ((beToNat v : ℚ) / 10) } else acc
  | 18 => if len = 2 then { acc with sensor_h_fov := some ((beToNat v : ℚ) / 100) } else acc
  | 19 => if len = 2 then { acc with sensor_v_fov := some ((beToNat v : ℚ) / 100) } else acc
  | 21 => if len = 4 then { acc with gimbal_roll_rel := some ((toSigned 4 (beToNat v) : ℚ) / 1000000) } else acc
  | 22 => if len = 4 then { acc with gimbal_pitch_rel := some ((toSigned 4 (beToNat v) : ℚ) / 1000000) } else acc
  | 23 => if len = 4 then { acc with gimbal_yaw_rel := some ((toSigned 4 (beToNat v) : ℚ) / 1000000) } else acc
  | 102 => if len = 4 then { acc with sensor_width_mm := some (beToNat v : ℚ) } else acc
  | 103 => if len = 4 then { acc with sensor_height_mm := some (beToNat v : ℚ) } else acc
  | 104 => if len = 4 then { acc with focal_length_mm := some (beToNat v : ℚ) } else acc
  | 105 => if len = 4 then { acc with gimbal_yaw_abs := some ((toSigned 4 (beToNat v) : ℚ) / 1000000) } else acc
  | 106 => if len = 4 then { acc with gimbal_pitch_abs := some ((toSigned 4 (beToNat v) : ℚ) / 1000000) } else acc
  | 107 => if len = 4 then { acc with gimbal_roll_abs := some ((toSigned 4 (beToNat v) : ℚ) / 1000000) } else acc
  | _ => acc

/-- The local-set item loop of `KLVDecoder.decode`.  `rem` is the suffix of
the blob starting at the current offset, `budget` is `end_offset - offset`
(the declared value length not yet consumed); the loop runs while
`offset < end_offset` (`0 < budget`) and `offset < len(data)` (`rem ≠ []`).
Reading the item length past the end of the blob breaks out of the loop, as
does an item whose declared length exceeds the remaining bytes of the blob. -/
def parseItems (rem : List Nat) (budget : Int) (acc : Telemetry) : Telemetry :=
  if budget ≤ 0 then acc
  else
    match rem with
    | [] => acc
    | [_] => acc
    | tag :: len :: rest =>
      if rest.length < len then acc
      else
        parseItems (rest.drop len) (budget - (2 + len)) (applyTag tag len (rest.take len) acc)
termination_by rem.length
decreasing_by
  simp only [List.length_drop, List.length_cons]
  omega

/-- The 16-byte MISB ST 0601 universal label. -/
def MISB_0601_KEY : List Nat :=
  [0x06, 0x0E, 0x2B, 0x34, 0x02, 0x0B, 0x01, 0x01,
   0x0E, 0x01, 0x03, 0x01, 0x01, 0x00, 0x00, 0x00]

/-- `KLVDecoder.decode`: check the universal label, read the BER length
(single byte below 128, `0x81` one length byte, `0x82` two big-endian length
bytes, anything else not applicable), then run the item loop over the value
region.  An index past the end of the blob while reading the BER length is an
`IndexError`/`struct.error` in the source, caught by the surrounding handler,
hence `none`. -/
def klvDecode (data : List Nat) : Option Telemetry :=
  if data.take 16 ≠ MISB_0601_KEY then none
  else
    match data.drop 16 with
    | [] => none
    | lb :: rest =>
      if lb < 128 then some (parseItems rest (lb : Int) {})
      else if lb = 0x81 then
        match rest with
        | [] => none
        | l1 :: rest2 => some (parseItems rest2 (l1 : Int) {})
      else if lb = 0x82 then
        match rest with
        | l1 :: l2 :: rest2 => some (parseItems rest2 ((256 * l1 + l2 : Nat) : Int) {})
        | _ => none
      else none

end KLV

namespace KLV

/-- Scaled value the decoder stores for a known tag whose payload is the
`tagWidth`-byte big-endian encoding of the raw integer `r` (see the
per-tag branches of `KLVDecoder.decode`). -/
def decodeVal (t : Nat) (r : Nat) : ℚ :=
  match t with
  | 2 => (r : ℚ)
  | 5 => (toSigned 2 r : ℚ) / 100
  | 6 => (toSigned 2 r : ℚ) / 100
  | 7 => (r : ℚ) / 100
  | 13 => (toSigned 4 r : ℚ) / 10000000
  | 14 => (toSigned 4 r : ℚ) / 10000000
  | 15 => (r : ℚ) / 10
  | 18 => (r : ℚ) / 100
  | 19 => (r : ℚ) / 100
  | 21 => (toSigned 4 r : ℚ) / 1000000
  | 22 => (toSigned 4 r : ℚ) / 1000000
  | 23 => (toSigned 4 r : ℚ) / 1000000
  | 102 => (r : ℚ)
  | 103 => (r : ℚ)
  | 104 => (r : ℚ)
  | 105 => (toSigned 4 r : ℚ) / 1000000
  | 106 => (toSigned 4 r : ℚ) / 1000000
  | 107 => (toSigned 4 r : ℚ) / 1000000
  | _ => 0

/-- Store a value under the field belonging to a tag (the assignment
`telemetry[...] = …` of each recognized branch). -/
def setTag (t : Nat) (v : ℚ) (acc : Telemetry) : Telemetry :=
  match t with
  | 2 => { acc with timestamp_us := some v }
  | 5 => { acc with roll := some v }
  | 6 => { acc with pitch := some v }
  | 7 => { acc with heading := some v }
  | 13 => { acc with latitude := some v }
  | 14 => { acc with longitude := some v }
  | 15 => { acc with altitude := some v }
  | 18 => { acc with sensor_h_fov := some v }
  | 19 => { acc with sensor_v_fov := some v }
  | 21 => { acc with gimbal_roll_rel := some v }
  | 22 => { acc with gimbal_pitch_rel := some v }
  | 23 => { acc with gimbal_yaw_rel := some v }
  | 102 => { acc with sensor_width_mm := some v }
  | 103 => { acc with sensor_height_mm := some v }
  | 104 => { acc with focal_length_mm := some v }
  | 105 => { acc with gimbal_yaw_abs := some v }
  | 106 => { acc with gimbal_pitch_abs := some v }
  | 107 => { acc with gimbal_roll_abs := some v }
  | _ => acc

/-- Read the field belonging to a tag from a record. -/
def getTag (t : Nat) (rec : Telemetry) : Option ℚ :=
  match t with
  | 2 => rec.timestamp_us
  | 5 => rec.roll
  | 6 => rec.pitch
  | 7 => rec.heading
  | 13 => rec.latitude
  | 14 => rec.longitude
  | 15 => rec.altitude
  | 18 => rec.sensor_h_fov
  | 19 => rec.sensor_v_fov
  | 21 => rec.gimbal_roll_rel
  | 22 => rec.gimbal_pitch_rel
  | 23 => rec.gimbal_yaw_rel
  | 102 => rec.sensor_width_mm
  | 103 => rec.sensor_height_mm
  | 104 => rec.focal_length_mm
  | 105 => rec.gimbal_yaw_abs
  | 106 => rec.gimbal_pitch_abs
  | 107 => rec.gimbal_roll_abs
  | _ => none

/-- Encoding of one local-set item: tag byte, declared width as the length
byte, then the raw value in big-endian (the encoding the per-tag table of the
specification declares). -/
def encodePair (p : Nat × Nat) : List Nat :=
  p.1 :: tagWidth p.1 :: natToBE (tagWidth p.1) p.2

/-- Concatenated encoding of a list of (tag, raw value) items. -/
def encodeItems (L : List (Nat × Nat)) : List Nat :=
  (L.map encodePair).flatten

/-- Total byte length of the encoded items. -/
def itemsLen (L : List (Nat × Nat)) : Nat :=
  (L.map (fun p => 2 + tagWidth p.1)).sum

/-- Full packet encoding of a record given as (tag, raw value) items: the
universal label, a single-byte BER length (the payload of a full record is at
most 100 bytes, so the short form is the correct one), then the items. -/
def klvEncode (L : List (Nat × Nat)) : List Nat :=
  MISB_0601_KEY ++ itemsLen L :: encodeItems L

theorem natToBE_length (w n : Nat) : (natToBE w n).length = w := by
  induction w generalizing n with
  | zero => rfl
  | succ w ih => simp [natToBE, ih]

theorem beToNat_append_one (xs : List Nat) (b : Nat) :
    beToNat (xs ++ [b]) = beToNat xs * 256 + b := by
  simp [beToNat, List.foldl_append]

theorem beToNat_natToBE (w n : Nat) (h : n < 256 ^ w) :
    beToNat (natToBE w n) = n := by
  induction w generalizing n with
  | zero =>
    simp only [pow_zero, Nat.lt_one_iff] at h
    simp [natToBE, beToNat, h]
  | succ w ih =>
    have hdiv : n / 256 < 256 ^ w := by
      apply Nat.div_lt_of_lt_mul
      calc n < 256 ^ (w + 1) := h
        _ = 256 * 256 ^ w := by rw [pow_succ, Nat.mul_comm]
    have hmod := Nat.div_add_mod n 256
    simp only [natToBE, beToNat_append_one, ih _ hdiv]
    omega

end KLV

namespace KLV

theorem parseItems_nonpos (rem : List Nat) (budget : Int) (acc : Telemetry)
    (h : budget ≤ 0) : parseItems rem budget acc = acc := by
  rw [parseItems.eq_def]
  simp [h]

theorem parseItems_nil (budget : Int) (acc : Telemetry) :
    parseItems [] budget acc = acc := by
  rw [parseItems.eq_def]
  split <;> rfl

theorem parseItems_cons (tag len : Nat) (rest : List Nat) (budget : Int)
    (acc : Telemetry) (hb : 0 < budget) :
    parseItems (tag :: len :: rest) budget acc =
      if rest.length < len then acc
      else parseItems (rest.drop len) (budget - (2 + len))
        (applyTag tag len (rest.take len) acc) := by
  rw [parseItems.eq_def]
  simp [Int.not_le.mpr hb]

/-- C6: the KLV decoder never raises on malformed items.  First part: a
local-set item whose declared length exceeds the remaining bytes of the blob
terminates parsing, returning the record accumulated before that item.
Second part: an item carrying a known tag with a length different from that
tag declared width leaves the record untouched (the field is omitted) while
parsing continues with the subsequent items. -/
theorem decode_handles_malformed_items :
    (∀ (tag len : Nat) (rest : List Nat) (budget : Int) (acc : Telemetry),
        0 < budget → rest.length < len →
        parseItems (tag :: len :: rest) budget acc = acc)
    ∧
    (∀ (tag len : Nat) (rest : List Nat) (budget : Int) (acc : Telemetry),
        0 < budget → len ≤ rest.length → tag ∈ knownTags → len ≠ tagWidth tag →
        parseItems (tag :: len :: rest) budget acc =
          parseItems (rest.drop len) (budget - (2 + len)) acc) := by
  constructor
  · intro tag len rest budget acc hb hlen
    rw [parseItems_cons _ _ _ _ _ hb, if_pos hlen]
  · intro tag len rest budget acc hb hlen htag hwidth
    rw [parseItems_cons _ _ _ _ _ hb, if_neg (Nat.not_lt.mpr hlen)]
    congr 1
    simp only [knownTags, List.mem_cons, List.not_mem_nil, or_false] at htag
    rcases htag with rfl | rfl | rfl | rfl | rfl | rfl | rfl | rfl | rfl | rfl |
      rfl | rfl | rfl | rfl | rfl | rfl | rfl | rfl <;>
      · simp only [tagWidth] at hwidth
        simp [applyTag, hwidth]

/-- Witness for `decode_handles_malformed_items`: a truncated item under tag
13 stops parsing with the empty record; a tag 13 item of wrong declared
length 2 is skipped and parsing moves past its two value bytes. -/
theorem decode_handles_malformed_items_witness :
    parseItems [13, 4, 1, 2] 10 {} = ({} : Telemetry) ∧
    parseItems [13, 2, 0, 50] 10 {} = parseItems [] 6 {} := by
  constructor
  · exact decode_handles_malformed_items.1 13 4 [1, 2] 10 {} (by decide) (by decide)
  · have h := decode_handles_malformed_items.2 13 2 [0, 50] 10 {}
      (by decide) (by decide) (by decide) (by decide)
    simpa using h

/-- One decoded field assignment: store under the field of tag `p.1` the
scaled reading of the raw value `p.2`. -/
def stepDecoded (acc : Telemetry) (p : Nat × Nat) : Telemetry :=
  setTag p.1 (decodeVal p.1 p.2) acc

theorem take_length_append (l1 l2 : List Nat) (n : Nat) (h : l1.length = n) :
    (l1 ++ l2).take n = l1 := by
  subst h
  exact List.take_left _ _

theorem drop_length_append (l1 l2 : List Nat) (n : Nat) (h : l1.length = n) :
    (l1 ++ l2).drop n = l2 := by
  subst h
  exact List.drop_left _ _

theorem applyTag_tagWidth (t : Nat) (ht : t ∈ knownTags) (v : List Nat)
    (acc : Telemetry) :
    applyTag t (tagWidth t) v acc = setTag t (decodeVal t (beToNat v)) acc := by
  simp only [knownTags, List.mem_cons, List.not_mem_nil, or_false] at ht
  rcases ht with rfl | rfl | rfl | rfl | rfl | rfl | rfl | rfl | rfl | rfl |
    rfl | rfl | rfl | rfl | rfl | rfl | rfl | rfl <;> rfl

theorem parseItems_encodePair (t r : Nat) (rest : List Nat) (budget : Int)
    (acc : Telemetry) (ht : t ∈ knownTags) (hr : r < 256 ^ tagWidth t)
    (hb : 0 < budget) :
    parseItems (encodePair (t, r) ++ rest) budget acc =
      parseItems rest (budget - (2 + tagWidth t))
        (setTag t (decodeVal t r) acc) := by
  have hlen : (natToBE (tagWidth t) r).length = tagWidth t := natToBE_length _ _
  have htake : (natToBE (tagWidth t) r ++ rest).take (tagWidth t)
      = natToBE (tagWidth t) r := take_length_append _ _ _ hlen
  have hdrop : (natToBE (tagWidth t) r ++ rest).drop (tagWidth t) = rest :=
    drop_length_append _ _ _ hlen
  show parseItems (t :: tagWidth t :: (natToBE (tagWidth t) r ++ rest)) budget acc = _
  rw [parseItems_cons _ _ _ _ _ hb,
    if_neg (by simp only [List.length_append, hlen]; omega)]
  rw [htake, hdrop, applyTag_tagWidth t ht, beToNat_natToBE _ _ hr]

theorem parseItems_encodeItems (L : List (Nat × Nat)) (acc : Telemetry)
    (hv : ∀ p ∈ L, p.1 ∈ knownTags ∧ p.2 < 256 ^ tagWidth p.1) :
    parseItems (encodeItems L) (itemsLen L : Int) acc = L.foldl stepDecoded acc := by
  induction L generalizing acc with
  | nil => simpa [encodeItems, itemsLen] using parseItems_nil 0 acc
  | cons p L ih =>
    obtain ⟨ht, hr⟩ := hv p (List.mem_cons_self _ _)
    have hlen : itemsLen (p :: L) = (2 + tagWidth p.1) + itemsLen L := by
      simp [itemsLen]
    have hb : (0 : Int) < (itemsLen (p :: L) : Int) := by
      rw [hlen]
      push_cast
      omega
    have henc : encodeItems (p :: L) = encodePair p ++ encodeItems L := by
      simp [encodeItems]
    rw [henc, show (p : Nat × Nat) = (p.1, p.2) from rfl,
      parseItems_encodePair p.1 p.2 _ _ _ ht hr hb]
    have hbud : (itemsLen (p :: L) : Int) - (2 + tagWidth p.1) = (itemsLen L : Int) := by
      rw [hlen]
      push_cast
      ring
    rw [hbud, ih _ (fun q hq => hv q (List.mem_cons_of_mem _ hq))]
    rfl

theorem itemsLen_le_of_nodup (L : List (Nat × Nat))
    (ht : ∀ p ∈ L, p.1 ∈ knownTags) (hnd : (L.map Prod.fst).Nodup) :
    itemsLen L ≤ 100 := by
  have h1 : itemsLen L = ((L.map Prod.fst).map (fun t => 2 + tagWidth t)).sum := by
    rw [List.map_map]
    rfl
  have h2 : ((L.map Prod.fst).map (fun t => 2 + tagWidth t)).sum
      = ∑ t ∈ (L.map Prod.fst).toFinset, (2 + tagWidth t) :=
    (List.sum_toFinset _ hnd).symm
  have h3 : (L.map Prod.fst).toFinset ⊆ knownTags.toFinset := by
    intro t htm
    simp only [List.mem_toFinset] at htm ⊢
    obtain ⟨p, hp, rfl⟩ := List.mem_map.mp htm
    exact ht p hp
  calc itemsLen L = ∑ t ∈ (L.map Prod.fst).toFinset, (2 + tagWidth t) := by
        rw [h1, h2]
    _ ≤ ∑ t ∈ knownTags.toFinset, (2 + tagWidth t) :=
        Finset.sum_le_sum_of_subset h3
    _ = 100 := by decide

theorem klvDecode_encode (L : List (Nat × Nat)) (hlen : itemsLen L < 128) :
    klvDecode (klvEncode L) = some (parseItems (encodeItems L) (itemsLen L : Int) {}) := by
  have hkey : (MISB_0601_KEY ++ itemsLen L :: encodeItems L).take 16 = MISB_0601_KEY :=
    take_length_append _ _ _ rfl
  have hdrop : (MISB_0601_KEY ++ itemsLen L :: encodeItems L).drop 16
      = itemsLen L :: encodeItems L :=
    drop_length_append _ _ _ rfl
  rw [klvEncode, klvDecode, if_neg (by simp [hkey]), hdrop]
  simp [hlen]

theorem getTag_setTag_self (t : Nat) (ht : t ∈ knownTags) (v : ℚ)
    (acc : Telemetry) : getTag t (setTag t v acc) = some v := by
  simp only [knownTags, List.mem_cons, List.not_mem_nil, or_false] at ht
  rcases ht with rfl | rfl | rfl | rfl | rfl | rfl | rfl | rfl | rfl | rfl |
    rfl | rfl | rfl | rfl | rfl | rfl | rfl | rfl <;> rfl

theorem getTag_setTag_ne (t u : Nat) (ht : t ∈ knownTags) (hu : u ∈ knownTags)
    (hne : t ≠ u) (v : ℚ) (acc : Telemetry) :
    getTag t (setTag u v acc) = getTag t acc := by
  simp only [knownTags, List.mem_cons, List.not_mem_nil, or_false] at ht hu
  rcases ht with rfl | rfl | rfl | rfl | rfl | rfl | rfl | rfl | rfl | rfl |
    rfl | rfl | rfl | rfl | rfl | rfl | rfl | rfl <;>
    rcases hu with rfl | rfl | rfl | rfl | rfl | rfl | rfl | rfl | rfl | rfl |
      rfl | rfl | rfl | rfl | rfl | rfl | rfl | rfl <;>
    first
      | exact absurd rfl hne
      | rfl

theorem getTag_empty (t : Nat) : getTag t {} = none := by
  unfold getTag
  split <;> rfl

theorem getTag_of_unknown (t : Nat) (ht : t ∉ knownTags) (rec : Telemetry) :
    getTag t rec = none := by
  unfold getTag
  split <;> first
    | rfl
    | exact absurd (by decide) ht

theorem getTag_foldl_not_mem (L : List (Nat × Nat)) (acc : Telemetry) (t : Nat)
    (hk : ∀ p ∈ L, p.1 ∈ knownTags) (ht : t ∈ knownTags)
    (hnm : t ∉ L.map Prod.fst) :
    getTag t (L.foldl stepDecoded acc) = getTag t acc := by
  induction L generalizing acc with
  | nil => rfl
  | cons p L ih =>
    simp only [List.map_cons, List.mem_cons, not_or] at hnm
    rw [List.foldl_cons,
      ih _ (fun q hq => hk q (List.mem_cons_of_mem _ hq)) hnm.2]
    exact getTag_setTag_ne t p.1 ht (hk p (List.mem_cons_self _ _)) hnm.1 _ _

theorem getTag_foldl_mem (L : List (Nat × Nat)) (acc : Telemetry) (t r : Nat)
    (hk : ∀ p ∈ L, p.1 ∈ knownTags) (hnd : (L.map Prod.fst).Nodup)
    (hm : (t, r) ∈ L) :
    getTag t (L.foldl stepDecoded acc) = some (decodeVal t r) := by
  induction L generalizing acc with
  | nil => cases hm
  | cons p L ih =>
    rw [List.map_cons, List.nodup_cons] at hnd
    rcases List.mem_cons.mp hm with heq | hmem
    · subst heq
      rw [List.foldl_cons,
        getTag_foldl_not_mem L _ t (fun q hq => hk q (List.mem_cons_of_mem _ hq))
          (hk _ (List.mem_cons_self _ _)) hnd.1]
      exact getTag_setTag_self t (hk _ (List.mem_cons_self _ _)) _ _
    · exact ih _ (fun q hq => hk q (List.mem_cons_of_mem _ hq)) hnd.2 hmem

/-- C7: round-trip identity of the KLV decoder over the declared encodings.
A telemetry record built from the recognized fields is presented as a list of
(tag, raw value) items with pairwise distinct known tags, each raw value
within its declared width; each field is encoded at its declared tag, width,
signedness and scale, the 16-byte MISB ST 0601 universal label and a correct
(single byte, the payload of a full record being at most 100 bytes) BER
length are prepended.  Passing the bytes through the decoder returns exactly
the original record: the field of every encoded tag holds the scaled raw
value and every other field is absent. -/
theorem decode_encode_roundtrip (L : List (Nat × Nat))
    (hv : ∀ p ∈ L, p.1 ∈ knownTags ∧ p.2 < 256 ^ tagWidth p.1)
    (hnd : (L.map Prod.fst).Nodup) :
    ∃ rec : Telemetry,
      klvDecode (klvEncode L) = some rec ∧
      (∀ p ∈ L, getTag p.1 rec = some (decodeVal p.1 p.2)) ∧
      (∀ t : Nat, t ∉ L.map Prod.fst → getTag t rec = none) := by
  refine ⟨L.foldl stepDecoded {}, ?_, ?_, ?_⟩
  · have h128 : itemsLen L < 128 :=
      lt_of_le_of_lt (itemsLen_le_of_nodup L (fun p hp => (hv p hp).1) hnd)
        (by norm_num)
    rw [klvDecode_encode L h128, parseItems_encodeItems L {} hv]
  · intro p hp
    exact getTag_foldl_mem L {} p.1 p.2 (fun q hq => (hv q hq).1) hnd
      (by simpa using hp)
  · intro t hnm
    by_cases htk : t ∈ knownTags
    · rw [getTag_foldl_not_mem L {} t (fun q hq => (hv q hq).1) htk hnm]
      exact getTag_empty t
    · exact getTag_of_unknown t htk _

/-- Witness for `decode_encode_roundtrip`: the record with latitude
40.1234567, longitude −74.9876543 (raw two complement 3545090753) and
altitude 123.4, packed under tags 13, 14, 15. -/
theorem decode_encode_roundtrip_witness :
    ∃ rec : Telemetry,
      klvDecode (klvEncode [(13, 401234567), (14, 3545090753), (15, 1234)])
        = some rec ∧
      (∀ p ∈ [((13 : Nat), (401234567 : Nat)), (14, 3545090753), (15, 1234)],
        getTag p.1 rec = some (decodeVal p.1 p.2)) ∧
      (∀ t : Nat,
        t ∉ [((13 : Nat), (401234567 : Nat)), (14, 3545090753), (15, 1234)].map Prod.fst →
        getTag t rec = none) :=
  decode_encode_roundtrip [(13, 401234567), (14, 3545090753), (15, 1234)]
    (by decide) (by decide)

end KLV

namespace Pipeline

/-- Queue capacity of the inference and output queues
(`queue.Queue(maxsize=2)` in `ThreadedPipeline.__init__`). -/
def queueCapacity : Nat := 2

/-- Blocking put used by the capture thread in batch mode
(`self.inference_queue.put(frame_data)` in `_capture_thread`): the producer
waits until space is available; once the put completes the frame is appended
at the back and no enqueued frame has been displaced. -/
def batchModePut (q : List Nat) (x : Nat) : List Nat :=
  q ++ [x]

/-- Leaky put (`put_nowait`; on `queue.Full` a `get_nowait` discards the
oldest entry, then the new element is enqueued) against a queue of the given
capacity. -/
def leakyPut (cap : Nat) (q : List Nat) (x : Nat) : List Nat :=
  if q.length < cap then q ++ [x] else q.drop 1 ++ [x]

/-- The inference thread hand-off to the output queue
(`_inference_thread`, the try `put_nowait` / except `queue.Full` block):
a leaky put against capacity 2, executed identically in live and batch
mode — the mode switch of the capture thread does not reach this hand-off. -/
def inferenceOutputPut (q : List Nat) (x : Nat) : List Nat :=
  leakyPut queueCapacity q x

/-- C1: in batch mode the capture stage never displaces an enqueued frame
(first part), but the inference stage hand-off to the output queue is the
same leaky put in every mode: after frames 1 and 2 fill the output queue,
handing frame 3 over displaces frame 1, which is then never processed —
contradicting the batch-mode exactly-once guarantee (and the capture thread
comment NEVER drop frames). -/
theorem batch_mode_output_handoff_drops_frame :
    (∀ (q : List Nat) (x : Nat), ∀ y ∈ q, y ∈ batchModePut q x) ∧
    inferenceOutputPut (inferenceOutputPut (inferenceOutputPut [] 1) 2) 3 = [2, 3] ∧
    1 ∉ inferenceOutputPut (inferenceOutputPut (inferenceOutputPut [] 1) 2) 3 := by
  refine ⟨?_, by decide, by decide⟩
  intro q x y hy
  exact List.mem_append_left _ hy

/-- Witness for `batch_mode_output_handoff_drops_frame`: the blocking put
keeps the already-enqueued frame 5. -/
theorem batch_mode_output_handoff_drops_frame_witness :
    5 ∈ batchModePut [5] 6 :=
  batch_mode_output_handoff_drops_frame.1 [5] 6 5 (List.mem_cons_self _ _)

end Pipeline

namespace SSE

/-- Capacity of each subscriber queue (`queue.Queue(maxsize=1000)` in
`SSEBroadcaster.subscribe`). -/
def maxQueue : Nat := 1000

/-- `SSEBroadcaster.publish`.  A subscriber is a pair of an identity (the
Python `queue.Queue` object identity, by which `list.remove` compares) and
the queue content.  First phase: `put_nowait` into every queue; a full queue
raises `queue.Full`, which the `except Exception` branch catches, collecting
that subscriber in `dead`.  Second phase: every subscriber collected in
`dead` is removed from the subscriber list. -/
def publish (subs : List (Nat × List String)) (data : String) :
    List (Nat × List String) :=
  let updated := subs.map (fun s =>
    if s.2.length < maxQueue then (s.1, s.2 ++ [data]) else s)
  let deadIds := (subs.filter (fun s => maxQueue ≤ s.2.length)).map Prod.fst
  updated.filter (fun s => s.1 ∉ deadIds)

/-- Counterexample for C2: a broadcaster with one subscriber whose queue is
full.  Before the publish the subscriber is registered; the publish returns
the empty subscriber list, so the subscriber set after publish does not
contain every subscriber it contained before — `publish` disconnects
subscribers whose queues overflow. -/
theorem publish_drops_full_subscriber_counterexample :
    (0, List.replicate 1000 "e") ∈ [((0 : Nat), List.replicate 1000 "e")] ∧
    publish [(0, List.replicate 1000 "e")] "d" = [] := by
  refine ⟨List.mem_cons_self _ _, ?_⟩
  simp only [publish, List.map_cons, List.map_nil, List.length_replicate,
    List.filter_cons, List.filter_nil, maxQueue]
  norm_num

theorem eq_of_fst_eq_of_nodup {β : Type} {l : List (Nat × β)}
    (hnd : (l.map Prod.fst).Nodup) {a b : Nat × β}
    (ha : a ∈ l) (hb : b ∈ l) (h : a.1 = b.1) : a = b := by
  induction l with
  | nil => cases ha
  | cons c l ih =>
    rw [List.map_cons, List.nodup_cons] at hnd
    rcases List.mem_cons.mp ha with rfl | ha' <;>
      rcases List.mem_cons.mp hb with rfl | hb'
    · rfl
    · exact absurd (h ▸ List.mem_map_of_mem Prod.fst hb') hnd.1
    · exact absurd (h ▸ List.mem_map_of_mem Prod.fst ha') hnd.1
    · exact ih hnd.2 ha' hb'

/-- C2 amended: a publish whose enqueue finds a subscriber queue full drops
the event AND removes that subscriber from the subscriber set; subscribers
with a non-full queue receive the event and stay registered. -/
theorem publish_full_queue_behavior (subs : List (Nat × List String))
    (data : String) (hnd : (subs.map Prod.fst).Nodup) :
    (∀ s ∈ subs, s.2.length < maxQueue →
      (s.1, s.2 ++ [data]) ∈ publish subs data) ∧
    (∀ s ∈ subs, maxQueue ≤ s.2.length →
      ∀ q : List String, (s.1, q) ∉ publish subs data) := by
  constructor
  · intro s hs hlen
    have hmem : (s.1, s.2 ++ [data]) ∈ subs.map (fun s =>
        if s.2.length < maxQueue then (s.1, s.2 ++ [data]) else s) := by
      refine List.mem_map.mpr ⟨s, hs, ?_⟩
      rw [if_pos hlen]
    refine List.mem_filter.mpr ⟨hmem, ?_⟩
    simp only [decide_eq_true_eq]
    intro hdead
    obtain ⟨s', hs', hfst⟩ := List.mem_map.mp hdead
    have hs'mem : s' ∈ subs := (List.mem_filter.mp hs').1
    have hfull : maxQueue ≤ s'.2.length := by
      have := (List.mem_filter.mp hs').2
      simpa using this
    have : s' = s := eq_of_fst_eq_of_nodup hnd hs'mem hs hfst
    subst this
    omega
  · intro s hs hlen q hq
    have hpred := (List.mem_filter.mp hq).2
    simp only [decide_eq_true_eq] at hpred
    apply hpred
    refine List.mem_map.mpr ⟨s, ?_, rfl⟩
    refine List.mem_filter.mpr ⟨hs, ?_⟩
    simpa using hlen

/-- Witness for `publish_full_queue_behavior`: subscriber 0 with an empty
queue receives the event; subscriber 1 with a full queue is removed. -/
theorem publish_full_queue_behavior_witness :
    ((0 : Nat), ["d"]) ∈ publish [(0, []), (1, List.replicate 1000 "x")] "d" ∧
    ∀ q : List String,
      ((1 : Nat), q) ∉ publish [(0, []), (1, List.replicate 1000 "x")] "d" := by
  have h := publish_full_queue_behavior [(0, []), (1, List.replicate 1000 "x")] "d"
    (by simp only [List.map_cons, List.map_nil]; decide)
  constructor
  · exact h.1 (0, []) (List.mem_cons_self _ _) (by simp [maxQueue])
  · intro q
    exact h.2 (1, List.replicate 1000 "x")
      (List.mem_cons_of_mem _ (List.mem_cons_self _ _))
      (by rw [maxQueue, List.length_replicate]) q

end SSE

namespace TAK

/-- The fields of a detection dict that `TAKCoTSender` reads.  The
`geo_coordinates` entry, when present, is the (latitude, longitude) pair of
the dict the georeferencer attaches (that dict always carries both keys). -/
structure Detection where
  class_name : String
  track_id : Option Int := none
  confidence : ℚ := 0
  geo_coordinates : Option (ℚ × ℚ) := none
  deriving Repr, DecidableEq

/-- A CoT message, modelled by the fields of the XML template that the
claims depend on; the remaining template text is fixed formatting around
these values. -/
structure CoTMessage where
  uid : String
  cot_type : String
  deriving Repr, DecidableEq

/-- Python substring containment (the `in` operator on strings), over
character lists. -/
def containsSub (needle : List Char) : List Char → Bool
  | [] => needle.isEmpty
  | c :: rest => needle.isPrefixOf (c :: rest) || containsSub needle rest

/-- `TAKCoTSender._get_cot_type`: case-insensitive substring match of the
class name against the hostile keyword list (`class_name.lower()`, modelled
as character-wise ASCII lowering — detector class names are ASCII). -/
def getCotType (class_name : String) : String :=
  if ["weapon", "gun", "threat"].any
      (fun h => containsSub h.toList (class_name.toList.map Char.toLower)) then
    "a-h-G-U-C"
  else
    "a-n-G-U-C"

/-- `TAKCoTSender.build_cot_message`.  Returns `none` when the detection has
no geo-coordinates.  `rand` stands for the short random hex drawn from
`uuid.uuid4` that the source embeds in the UID of an untracked detection. -/
def buildCotMessage (d : Detection) (frame_num : Nat) (rand : String) :
    Option CoTMessage :=
  match d.geo_coordinates with
  | none => none
  | some _ =>
    let uid :=
      match d.track_id with
      | some tid => "YOLO-" ++ d.class_name ++ "-" ++ toString tid
      | none => "YOLO-" ++ d.class_name ++ "-" ++ toString frame_num ++ "-" ++ rand
    some { uid := uid, cot_type := getCotType d.class_name }

/-- Python `dict.get` on an insertion-ordered association list. -/
def getTime (m : List (Int × ℚ)) (k : Int) : Option ℚ :=
  match m with
  | [] => none
  | p :: rest => if p.1 = k then some p.2 else getTime rest k

/-- Python dict assignment on an insertion-ordered association list: replace
every binding of the key in place, or append a fresh binding at the end. -/
def setTime (m : List (Int × ℚ)) (k : Int) (v : ℚ) : List (Int × ℚ) :=
  if m.any (fun p => p.1 == k) then
    m.map (fun p => if p.1 == k then (k, v) else p)
  else
    m ++ [(k, v)]

/-- Rate limiting window `update_interval` (3.0 seconds). -/
def updateInterval : ℚ := 3

/-- The mutable state of the dispatcher that `_send_detection_batch`
touches: the `track_id → last send time` map, the send queue (capacity
1000) and the drop counter. -/
structure SenderState where
  last_send_time : List (Int × ℚ)
  message_queue : List CoTMessage
  messages_dropped : Nat
  deriving Repr, DecidableEq

/-- The `message_queue.put_nowait` step of `_send_detection_batch`: append
when the send queue has room, else count a drop; a `None` message (no
geo-coordinates) is not enqueued. -/
def enqueueCot (st : SenderState) (msg : Option CoTMessage) : SenderState :=
  match msg with
  | none => st
  | some m =>
    if st.message_queue.length < 1000 then
      { st with message_queue := st.message_queue ++ [m] }
    else
      { st with messages_dropped := st.messages_dropped + 1 }

/-- The per-item handler inside `_send_detection_batch`, at current time
`now` (the successive `time.time()` readings of one item are modelled by the
single instant `now`).  A tracked detection transmitted less than
`update_interval` ago is skipped; otherwise its last-send entry is set to
`now`, the map is pruned of entries older than 60 seconds when it exceeds
1000 entries, and the CoT message is built and enqueued. -/
def sendItemStep (now : ℚ) (st : SenderState) (d : Detection)
    (frame_num : Nat) (rand : String) : SenderState :=
  match d.track_id with
  | some tid =>
    let last := (getTime st.last_send_time tid).getD 0
    if now - last < updateInterval then st
    else
      let m1 := setTime st.last_send_time tid now
      let m2 := if 1000 < m1.length then m1.filter (fun p => now - 60 < p.2) else m1
      enqueueCot { st with last_send_time := m2 } (buildCotMessage d frame_num rand)
  | none => enqueueCot st (buildCotMessage d frame_num rand)

/-- `_send_detection_batch`: fold the per-item handler over the batch; each
item carries the detection, its frame number and the random hex its
untracked UID would use. -/
def sendDetectionBatch (now : ℚ) (st : SenderState)
    (batch : List (Detection × Nat × String)) : SenderState :=
  batch.foldl (fun s item => sendItemStep now s item.1 item.2.1 item.2.2) st

end TAK

namespace TAK

theorem getTime_setTime_self (m : List (Int × ℚ)) (k : Int) (v : ℚ) :
    getTime (setTime m k v) k = some v := by
  unfold setTime
  by_cases h : m.any (fun p => p.1 == k)
  · rw [if_pos h]
    induction m with
    | nil => simp at h
    | cons p m ih =>
      simp only [List.any_cons, Bool.or_eq_true] at h
      by_cases hp : p.1 == k
      · simp [getTime, hp]
      · rw [List.map_cons, if_neg hp, getTime,
          if_neg (by simpa using hp)]
        exact ih (h.resolve_left hp)
  · rw [if_neg h]
    induction m with
    | nil => simp [getTime]
    | cons p m ih =>
      simp only [List.any_cons, Bool.or_eq_true, not_or] at h
      rw [List.cons_append, getTime, if_neg (by simpa using h.1)]
      exact ih (by simpa using h.2)

theorem snd_eq_of_mem_setTime (m : List (Int × ℚ)) (k : Int) (v : ℚ) :
    ∀ p ∈ setTime m k v, p.1 = k → p.2 = v := by
  intro p hp hk
  unfold setTime at hp
  by_cases h : m.any (fun p => p.1 == k)
  · rw [if_pos h] at hp
    obtain ⟨q, _, hq⟩ := List.mem_map.mp hp
    by_cases hqk : q.1 == k
    · rw [if_pos hqk] at hq
      rw [← hq]
    · rw [if_neg hqk] at hq
      subst hq
      exact absurd (by simpa using hk) hqk
  · rw [if_neg h] at hp
    rcases List.mem_append.mp hp with hin | hone
    · rw [List.any_eq_true] at h
      push_neg at h
      have := h p hin
      simp only [beq_iff_eq] at this
      simp_all
    · simp only [List.mem_singleton] at hone
      rw [hone]

theorem getTime_filter_keep (l : List (Int × ℚ)) (k : Int) (v : ℚ)
    (f : Int × ℚ → Bool) (hl : getTime l k = some v)
    (hall : ∀ p ∈ l, p.1 = k → p.2 = v) (hf : f (k, v) = true) :
    getTime (l.filter f) k = some v := by
  induction l with
  | nil => simp [getTime] at hl
  | cons p l ih =>
    by_cases hp : p.1 = k
    · have hpv : p.2 = v := hall p (List.mem_cons_self _ _) hp
      have hpe : p = (k, v) := by
        cases p
        simp_all
      subst hpe
      rw [List.filter_cons_of_pos hf]
      simp only [getTime, if_pos rfl] at hl ⊢
      exact hl
    · rw [getTime, if_neg hp] at hl
      have ihl := ih hl (fun q hq => hall q (List.mem_cons_of_mem _ hq))
      by_cases hfp : f p = true
      · rw [List.filter_cons_of_pos hfp, getTime, if_neg hp]
        exact ihl
      · rw [List.filter_cons_of_neg (by simpa using hfp)]
        exact ihl

theorem enqueueCot_last_send (st : SenderState) (msg : Option CoTMessage) :
    (enqueueCot st msg).last_send_time = st.last_send_time := by
  unfold enqueueCot
  cases msg with
  | none => rfl
  | some m =>
    by_cases h : st.message_queue.length < 1000 <;> simp [h]

/-- C8: the per-item handler of `_send_detection_batch`, on an item whose
detection carries a `track_id`.  If the track was last transmitted less than
`update_interval` (3 s) before the current time, the item is skipped: the
state (send queue, drop counter and rate map) is unchanged, so no CoT
message is produced and the last-send entry is untouched.  Otherwise the
last-send entry of the track is set to the current time, and the CoT message
(when the detection yields one and the send queue has room) is appended to
the send queue. -/
theorem rate_limit_per_item (now : ℚ) (st : SenderState) (d : Detection)
    (frame_num : Nat) (rand : String) (tid : Int)
    (ht : d.track_id = some tid) :
    (now - (getTime st.last_send_time tid).getD 0 < updateInterval →
      sendItemStep now st d frame_num rand = st) ∧
    (updateInterval ≤ now - (getTime st.last_send_time tid).getD 0 →
      getTime (sendItemStep now st d frame_num rand).last_send_time tid
          = some now ∧
      (∀ m, buildCotMessage d frame_num rand = some m →
        st.message_queue.length < 1000 →
        (sendItemStep now st d frame_num rand).message_queue
          = st.message_queue ++ [m])) := by
  constructor
  · intro hlt
    simp only [sendItemStep, ht, if_pos hlt]
  · intro hge
    have hnot : ¬ now - (getTime st.last_send_time tid).getD 0 < updateInterval :=
      not_lt.mpr hge
    constructor
    · simp only [sendItemStep, ht, if_neg hnot, enqueueCot_last_send]
      by_cases hp : 1000 < (setTime st.last_send_time tid now).length
      · rw [if_pos hp]
        refine getTime_filter_keep _ _ _ _ (getTime_setTime_self _ _ _)
          (snd_eq_of_mem_setTime _ _ _) ?_
        simp only [decide_eq_true_eq]
        linarith
      · rw [if_neg hp]
        exact getTime_setTime_self _ _ _
    · intro m hm hroom
      simp only [sendItemStep, ht, if_neg hnot, hm, enqueueCot, if_pos hroom]

/-- Witness for `rate_limit_per_item`: track 7 last sent at time 0 is sent
again at time 10 — the entry becomes 10 and the CoT message reaches the
queue. -/
theorem rate_limit_per_item_witness :
    getTime (sendItemStep 10 ⟨[(7, 0)], [], 0⟩
        ⟨"person", some 7, 9 / 10, some (40, -74)⟩ 3 "ab").last_send_time 7
      = some 10 ∧
    (sendItemStep 10 ⟨[(7, 0)], [], 0⟩
        ⟨"person", some 7, 9 / 10, some (40, -74)⟩ 3 "ab").message_queue
      = [⟨"YOLO-person-7", "a-n-G-U-C"⟩] := by
  have h := (rate_limit_per_item 10 ⟨[(7, 0)], [], 0⟩
    ⟨"person", some 7, 9 / 10, some (40, -74)⟩ 3 "ab" 7 rfl).2
    (by norm_num [getTime, updateInterval])
  refine ⟨h.1, ?_⟩
  simpa using h.2 ⟨"YOLO-person-7", "a-n-G-U-C"⟩ (by decide) (by decide)

/-- C9: for a detection carrying a `track_id`, every CoT message the builder
produces has UID `YOLO-{class}-{track_id}`; the UID does not depend on the
frame number or on the random hex, hence it is identical across all frames
in which the track appears. -/
theorem tracked_uid_stable (d : Detection) (tid : Int)
    (ht : d.track_id = some tid) :
    (∀ (frame_num : Nat) (rand : String) (m : CoTMessage),
      buildCotMessage d frame_num rand = some m →
      m.uid = "YOLO-" ++ d.class_name ++ "-" ++ toString tid) ∧
    (∀ (f1 f2 : Nat) (r1 r2 : String) (m1 m2 : CoTMessage),
      buildCotMessage d f1 r1 = some m1 → buildCotMessage d f2 r2 = some m2 →
      m1.uid = m2.uid) := by
  have huid : ∀ (frame_num : Nat) (rand : String) (m : CoTMessage),
      buildCotMessage d frame_num rand = some m →
      m.uid = "YOLO-" ++ d.class_name ++ "-" ++ toString tid := by
    intro frame_num rand m hm
    unfold buildCotMessage at hm
    cases hgeo : d.geo_coordinates with
    | none => rw [hgeo] at hm; cases hm
    | some g =>
      rw [hgeo] at hm
      simp only [ht] at hm
      cases hm
      rfl
  exact ⟨huid, fun f1 f2 r1 r2 m1 m2 h1 h2 =>
    (huid f1 r1 m1 h1).trans (huid f2 r2 m2 h2).symm⟩

/-- Witness for `tracked_uid_stable`: a tracked person detection produces
the UID `YOLO-person-7` at frame 3 and at frame 1000. -/
theorem tracked_uid_stable_witness :
    ∃ m : CoTMessage,
      buildCotMessage ⟨"person", some 7, 9 / 10, some (40, -74)⟩ 1000 "cd"
        = some m ∧
      m.uid = "YOLO-" ++ "person" ++ "-" ++ toString (7 : Int) := by
  refine ⟨⟨"YOLO-person-7", "a-n-G-U-C"⟩, by decide, ?_⟩
  exact (tracked_uid_stable ⟨"person", some 7, 9 / 10, some (40, -74)⟩ 7 rfl).1
    1000 "cd" ⟨"YOLO-person-7", "a-n-G-U-C"⟩ (by decide)

end TAK

namespace Geo

open Real

/-- Bounding box `[x1, y1, x2, y2]` in pixels. -/
structure Bbox where
  x1 : ℝ
  y1 : ℝ
  x2 : ℝ
  y2 : ℝ

/-- The telemetry dict as `calculate_object_coordinates` reads it: every
field optional and real-valued (by the time the georeferencer consumes the
decoded KLV values they are plain numbers). -/
structure GeoTelemetry where
  latitude : Option ℝ := none
  longitude : Option ℝ := none
  altitude : Option ℝ := none
  roll : Option ℝ := none
  pitch : Option ℝ := none
  heading : Option ℝ := none
  gimbal_yaw_rel : Option ℝ := none
  gimbal_pitch_rel : Option ℝ := none
  gimbal_roll_rel : Option ℝ := none
  gimbal_yaw_abs : Option ℝ := none
  gimbal_pitch_abs : Option ℝ := none
  gimbal_roll_abs : Option ℝ := none
  sensor_width_mm : Option ℝ := none
  sensor_height_mm : Option ℝ := none
  focal_length_mm : Option ℝ := none
  sensor_h_fov : Option ℝ := none
  sensor_v_fov : Option ℝ := none

/-- The `gimbal_method` marker of the result dict. -/
inductive GimbalMethod where
  | absolute_world_frame
  | relative_approx_transform
  | fallback_nadir
  deriving Repr, DecidableEq

/-- The result dict of `calculate_object_coordinates` (the constant
`calculation_method = "photogrammetry"` entry is omitted). -/
structure GeoResult where
  latitude : ℝ
  longitude : ℝ
  estimated_ground_distance_m : ℝ
  camera_azimuth_deg : ℝ
  camera_elevation_deg : ℝ
  gimbal_method : GimbalMethod
  has_camera_specs : Bool

/-- `math.radians`. -/
noncomputable def radians (x : ℝ) : ℝ := x * π / 180

/-- `math.degrees`. -/
noncomputable def degrees (x : ℝ) : ℝ := x * 180 / π

/-- Python float modulo (for a positive modulus): `x % y = x - y·⌊x/y⌋`. -/
noncomputable def fmod (x y : ℝ) : ℝ := x - y * (⌊x / y⌋ : ℝ)

/-- Python truthiness of an optional float: present and nonzero. -/
def truthy (x : Option ℝ) : Prop := x.getD 0 ≠ 0

noncomputable instance (x : Option ℝ) : Decidable (truthy x) := by
  unfold truthy
  infer_instance

/-- World-frame gimbal pose and the method that produced it. -/
structure GimbalWorld where
  yaw : ℝ
  pitch : ℝ
  roll : ℝ
  method : GimbalMethod

/-- The gimbal orientation handling block of `calculate_object_coordinates`:
`has_absolute` is the presence of `gimbal_yaw_abs` or `gimbal_pitch_abs`
(only those two fields are tested), `has_relative` the presence of
`gimbal_yaw_rel` or `gimbal_pitch_rel`; absolute wins, then relative (summed
with the platform pose), else nadir fallback. -/
noncomputable def gimbalSelect (k : GeoTelemetry) : GimbalWorld :=
  if k.gimbal_yaw_abs.isSome ∨ k.gimbal_pitch_abs.isSome then
    { yaw := k.gimbal_yaw_abs.getD 0
      pitch := k.gimbal_pitch_abs.getD (-90)
      roll := k.gimbal_roll_abs.getD 0
      method := .absolute_world_frame }
  else if k.gimbal_yaw_rel.isSome ∨ k.gimbal_pitch_rel.isSome then
    { yaw := k.heading.getD 0 + k.gimbal_yaw_rel.getD 0
      pitch := k.gimbal_pitch_rel.getD (-90) + k.pitch.getD 0
      roll := k.gimbal_roll_rel.getD 0 + k.roll.getD 0
      method := .relative_approx_transform }
  else
    { yaw := k.heading.getD 0
      pitch := -90
      roll := 0
      method := .fallback_nadir }

/-- The angular-offset block: camera-specification path (all three
millimetre fields truthy, i.e. present and nonzero), FOV path (both FOV
fields present), or the default 60° FOV fallback, which clears
`has_camera_specs`.  Returns `(alpha_x, alpha_y, has_camera_specs)`. -/
noncomputable def alphaXY (k : GeoTelemetry) (cx cy w h : ℝ) : ℝ × ℝ × Bool :=
  if truthy k.sensor_width_mm ∧ truthy k.sensor_height_mm ∧
      truthy k.focal_length_mm then
    (cx * (Real.arctan (k.sensor_width_mm.getD 0 / (2 * k.focal_length_mm.getD 0)) * 2 / w),
     cy * (Real.arctan (k.sensor_height_mm.getD 0 / (2 * k.focal_length_mm.getD 0)) * 2 / h),
     true)
  else if k.sensor_h_fov.isSome ∧ k.sensor_v_fov.isSome then
    ((cx / w) * radians (k.sensor_h_fov.getD 0),
     (cy / h) * radians (k.sensor_v_fov.getD 0),
     true)
  else
    ((cx / w) * radians 60,
     (cy / h) * (radians 60 * (h / w)),
     false)

/-- The camera-pointing and ground-intersection block of
`calculate_object_coordinates`: azimuth is the world yaw plus the horizontal
angular offset, modulo 360; elevation the world pitch plus the vertical
angular offset.  At or above the horizon, or within 5° of it, the function
returns unavailable; otherwise the flat-earth intersection with
`horizontal_distance = altitude · tan(|elevation|)` and the local
metres-per-degree conversion. -/
noncomputable def groundResult (plat plon palt yawWorld pitchWorld : ℝ)
    (method : GimbalMethod) (hasSpecs : Bool) (ax ay : ℝ) : Option GeoResult :=
  let cameraAzimuth := fmod (yawWorld + degrees ax) 360
  let cameraElevation := pitchWorld + degrees ay
  if 0 ≤ cameraElevation then none
  else if |cameraElevation| < 5 then none
  else
    let lookDown := |cameraElevation|
    let horizontalDistance := palt * Real.tan (radians lookDown)
    let metersPerDegLat : ℝ := 111320
    let metersPerDegLon : ℝ := 111320 * Real.cos (radians plat)
    let dispNorth := horizontalDistance * Real.cos (radians cameraAzimuth)
    let dispEast := horizontalDistance * Real.sin (radians cameraAzimuth)
    some
      { latitude := plat + dispNorth / metersPerDegLat
        longitude := plon + dispEast / metersPerDegLon
        estimated_ground_distance_m := horizontalDistance
        camera_azimuth_deg := cameraAzimuth
        camera_elevation_deg := cameraElevation
        gimbal_method := method
        has_camera_specs := hasSpecs }

/-- `calculate_object_coordinates` (`src/modules/geo.py`): require latitude,
longitude and altitude, then combine the gimbal selection, the bbox-centre
angular offset and the ground intersection.  A zero frame dimension raises
`ZeroDivisionError` in the source at the first per-pixel division, caught by
the surrounding handler — hence `none`. -/
noncomputable def calculate_object_coordinates (bbox : Bbox)
    (k : GeoTelemetry) (frameWidth frameHeight : ℝ) : Option GeoResult :=
  match k.latitude, k.longitude, k.altitude with
  | some plat, some plon, some palt =>
    if frameWidth = 0 ∨ frameHeight = 0 then none
    else
      let g := gimbalSelect k
      let cx := (bbox.x1 + bbox.x2) / 2 - frameWidth / 2
      let cy := (bbox.y1 + bbox.y2) / 2 - frameHeight / 2
      let a := alphaXY k cx cy frameWidth frameHeight
      groundResult plat plon palt g.yaw g.pitch g.method a.2.2 a.1 a.2.1
  | _, _, _ => none

end Geo

namespace Geo

theorem fmod_bounds (x y : ℝ) (hy : 0 < y) : 0 ≤ fmod x y ∧ fmod x y < y := by
  unfold fmod
  constructor
  · have h := Int.sub_floor_div_mul_nonneg x hy
    calc (0 : ℝ) ≤ x - ⌊x / y⌋ * y := h
      _ = x - y * ⌊x / y⌋ := by ring
  · have h := Int.sub_floor_div_mul_lt x hy
    calc x - y * (⌊x / y⌋ : ℝ) = x - ⌊x / y⌋ * y := by ring
      _ < y := h

theorem groundResult_eq_some (plat plon palt yawWorld pitchWorld : ℝ)
    (method : GimbalMethod) (hasSpecs : Bool) (ax ay : ℝ) (r : GeoResult)
    (h : groundResult plat plon palt yawWorld pitchWorld method hasSpecs ax ay
      = some r) :
    r.camera_azimuth_deg = fmod (yawWorld + degrees ax) 360 ∧
    r.camera_elevation_deg = pitchWorld + degrees ay ∧
    r.estimated_ground_distance_m
      = palt * Real.tan (radians |pitchWorld + degrees ay|) ∧
    r.gimbal_method = method ∧
    r.has_camera_specs = hasSpecs ∧
    ¬ 0 ≤ pitchWorld + degrees ay ∧
    ¬ |pitchWorld + degrees ay| < 5 := by
  unfold groundResult at h
  dsimp only at h
  split_ifs at h with h1 h2
  cases h
  exact ⟨rfl, rfl, rfl, rfl, rfl, h1, h2⟩

theorem calculate_eq_some (bbox : Bbox) (k : GeoTelemetry) (w h : ℝ)
    (r : GeoResult)
    (hr : calculate_object_coordinates bbox k w h = some r) :
    ∃ plat plon palt, k.latitude = some plat ∧ k.longitude = some plon ∧
      k.altitude = some palt ∧ ¬ (w = 0 ∨ h = 0) ∧
      groundResult plat plon palt (gimbalSelect k).yaw (gimbalSelect k).pitch
        (gimbalSelect k).method
        (alphaXY k ((bbox.x1 + bbox.x2) / 2 - w / 2)
          ((bbox.y1 + bbox.y2) / 2 - h / 2) w h).2.2
        (alphaXY k ((bbox.x1 + bbox.x2) / 2 - w / 2)
          ((bbox.y1 + bbox.y2) / 2 - h / 2) w h).1
        (alphaXY k ((bbox.x1 + bbox.x2) / 2 - w / 2)
          ((bbox.y1 + bbox.y2) / 2 - h / 2) w h).2.1 = some r := by
  unfold calculate_object_coordinates at hr
  cases hlat : k.latitude with
  | none => rw [hlat] at hr; cases hr
  | some plat =>
    cases hlon : k.longitude with
    | none => rw [hlat, hlon] at hr; cases hr
    | some plon =>
      cases halt : k.altitude with
      | none => rw [hlat, hlon, halt] at hr; cases hr
      | some palt =>
        rw [hlat, hlon, halt] at hr
        simp only at hr
        split_ifs at hr with hwz
        exact ⟨plat, plon, palt, rfl, rfl, rfl, hwz, hr⟩

/-- C4 amended: the absolute world-frame path is selected precisely on the
presence of `gimbal_yaw_abs` or `gimbal_pitch_abs` (the source tests only
those two fields; `gimbal_roll_abs` alone does not trigger it).  When one of
the two is present, the selection uses `gimbal_yaw_abs` (default 0),
`gimbal_pitch_abs` (default −90), `gimbal_roll_abs` (default 0), the method
is reported as absolute, and any returned result carries
`gimbal_method = absolute_world_frame`. -/
theorem absolute_gimbal_selection (k : GeoTelemetry)
    (habs : k.gimbal_yaw_abs.isSome ∨ k.gimbal_pitch_abs.isSome) :
    gimbalSelect k =
      { yaw := k.gimbal_yaw_abs.getD 0
        pitch := k.gimbal_pitch_abs.getD (-90)
        roll := k.gimbal_roll_abs.getD 0
        method := .absolute_world_frame } ∧
    (∀ (bbox : Bbox) (w h : ℝ) (r : GeoResult),
      calculate_object_coordinates bbox k w h = some r →
      r.gimbal_method = .absolute_world_frame) := by
  have hsel : gimbalSelect k =
      { yaw := k.gimbal_yaw_abs.getD 0
        pitch := k.gimbal_pitch_abs.getD (-90)
        roll := k.gimbal_roll_abs.getD 0
        method := .absolute_world_frame } := by
    unfold gimbalSelect
    rw [if_pos habs]
  refine ⟨hsel, fun bbox w h r hr => ?_⟩
  obtain ⟨plat, plon, palt, _, _, _, _, hg⟩ := calculate_eq_some bbox k w h r hr
  have := (groundResult_eq_some _ _ _ _ _ _ _ _ _ _ hg).2.2.2.1
  rw [this, hsel]

/-- Witness for `absolute_gimbal_selection`: a record carrying only
`gimbal_pitch_abs = -45` (plus position) selects the absolute path with
yaw defaulted to 0. -/
theorem absolute_gimbal_selection_witness :
    gimbalSelect
      { latitude := some 40, longitude := some (-74), altitude := some 100,
        gimbal_pitch_abs := some (-45) } =
      { yaw := 0, pitch := -45, roll := 0,
        method := .absolute_world_frame } := by
  have h := (absolute_gimbal_selection
    { latitude := some 40, longitude := some (-74), altitude := some 100,
      gimbal_pitch_abs := some (-45) } (Or.inr rfl)).1
  simpa using h

/-- C10: on a record with a relative gimbal yaw but no relative gimbal pitch
(and no absolute gimbal yaw/pitch), the georeferencer takes the relative
path and substitutes −90° for the missing relative pitch, so the world-frame
pitch equals platform pitch − 90. -/
theorem relative_pitch_defaults_to_nadir (k : GeoTelemetry)
    (hyabs : k.gimbal_yaw_abs = none) (hpabs : k.gimbal_pitch_abs = none)
    (hyrel : k.gimbal_yaw_rel.isSome) (hprel : k.gimbal_pitch_rel = none) :
    (gimbalSelect k).pitch = k.pitch.getD 0 - 90 ∧
    (gimbalSelect k).method = .relative_approx_transform := by
  unfold gimbalSelect
  rw [if_neg (by simp [hyabs, hpabs]), if_pos (Or.inl hyrel)]
  constructor
  · simp only [hprel, Option.getD_none]
    ring
  · rfl

/-- Witness for `relative_pitch_defaults_to_nadir`: platform pitch 10 and a
relative yaw of 5 with no relative pitch give world pitch −80. -/
theorem relative_pitch_defaults_to_nadir_witness :
    (gimbalSelect { pitch := some 10, gimbal_yaw_rel := some 5 }).pitch
        = (10 : ℝ) - 90 ∧
    (gimbalSelect { pitch := some 10, gimbal_yaw_rel := some 5 }).method
        = .relative_approx_transform := by
  have h := relative_pitch_defaults_to_nadir
    { pitch := some 10, gimbal_yaw_rel := some 5 } rfl rfl rfl rfl
  simpa using h

end Geo

namespace Geo

/-- C3 amended: every returned geo-coordinates result satisfies
`0 ≤ camera_azimuth_deg < 360` and `camera_elevation_deg ≤ −5`, and its
estimated ground distance is nonnegative PROVIDED the platform altitude is
nonnegative and the camera elevation is at least −90° (the source computes
`altitude · tan(|elevation|)`, which is negative for elevations below −90°
or negative altitudes). -/
theorem geo_result_bounds (bbox : Bbox) (k : GeoTelemetry) (w h : ℝ)
    (r : GeoResult)
    (hr : calculate_object_coordinates bbox k w h = some r) :
    (0 ≤ r.camera_azimuth_deg ∧ r.camera_azimuth_deg < 360) ∧
    r.camera_elevation_deg ≤ -5 ∧
    (∀ palt, k.altitude = some palt → 0 ≤ palt →
      -90 ≤ r.camera_elevation_deg → 0 ≤ r.estimated_ground_distance_m) := by
  obtain ⟨plat, plon, palt, hlat, hlon, halt, hwz, hg⟩ :=
    calculate_eq_some bbox k w h r hr
  obtain ⟨haz, hel, hdist, hm, hs, hge, hab⟩ :=
    groundResult_eq_some _ _ _ _ _ _ _ _ _ _ hg
  push_neg at hge hab
  have helneg : r.camera_elevation_deg < 0 := by rw [hel]; exact hge
  have hab5 : 5 ≤ |r.camera_elevation_deg| := by rw [hel]; exact hab
  refine ⟨?_, ?_, ?_⟩
  · rw [haz]
    exact fmod_bounds _ _ (by norm_num)
  · rw [abs_of_neg helneg] at hab5
    linarith
  · intro palt' halt' hpos hm90
    rw [halt] at halt'
    injection halt' with he
    subst he
    rw [hdist, ← hel]
    apply mul_nonneg hpos
    have habs90 : |r.camera_elevation_deg| ≤ 90 := by
      rw [abs_of_neg helneg]
      linarith
    apply Real.tan_nonneg_of_nonneg_of_le_pi_div_two
    · unfold radians
      positivity
    · unfold radians
      have hpi := Real.pi_pos
      rw [div_le_div_iff₀ (by norm_num) (by norm_num : (0:ℝ) < 2)]
      nlinarith [abs_nonneg r.camera_elevation_deg]

open Real

/-- Counterexample for C3 as stated: with `gimbal_pitch_abs = −100°` and a
centred bbox in a 1920×1080 frame (altitude 100 m), the georeferencer
returns a result — the elevation −100° passes both horizon guards — whose
estimated ground distance `100·tan(radians 100)` is negative. -/
theorem geo_negative_distance_counterexample :
    (calculate_object_coordinates ⟨960, 540, 960, 540⟩
        { latitude := some 0, longitude := some 0, altitude := some 100,
          gimbal_yaw_abs := some 0, gimbal_pitch_abs := some (-100) }
        1920 1080).map GeoResult.estimated_ground_distance_m
      = some (100 * Real.tan (radians 100)) ∧
    100 * Real.tan (radians 100) < 0 := by
  constructor
  · have hax : ((960 + 960 : ℝ) / 2 - 1920 / 2) = 0 := by norm_num
    simp only [calculate_object_coordinates, gimbalSelect, alphaXY, truthy,
      groundResult, Option.isSome_some, Option.isSome_none, Option.getD_some,
      Option.getD_none]
    norm_num [degrees, fmod]
  · have hrad : radians 100 = 5 * π / 9 := by
      unfold radians
      ring
    have hpi := Real.pi_pos
    have hsin : 0 < Real.sin (5 * π / 9) := by
      apply Real.sin_pos_of_pos_of_lt_pi
      · positivity
      · nlinarith
    have hcos : Real.cos (5 * π / 9) < 0 := by
      apply Real.cos_neg_of_pi_div_two_lt_of_lt
      · nlinarith
      · nlinarith
    rw [hrad, Real.tan_eq_sin_div_cos]
    have : Real.sin (5 * π / 9) / Real.cos (5 * π / 9) < 0 :=
      div_neg_of_pos_of_neg hsin hcos
    nlinarith

/-- Concrete result record: platform at (0, 0), altitude 100 m, absolute
gimbal pitch −100°, centred bbox in a 1920×1080 frame. -/
noncomputable def geoSampleResult : GeoResult :=
  { latitude := 100 * Real.tan (radians 100) / 111320
    longitude := 0
    estimated_ground_distance_m := 100 * Real.tan (radians 100)
    camera_azimuth_deg := 0
    camera_elevation_deg := -100
    gimbal_method := .absolute_world_frame
    has_camera_specs := false }

theorem geoSampleResult_eval :
    calculate_object_coordinates ⟨960, 540, 960, 540⟩
        { latitude := some 0, longitude := some 0, altitude := some 100,
          gimbal_yaw_abs := some 0, gimbal_pitch_abs := some (-100) }
        1920 1080
      = some geoSampleResult := by
  have h0 : radians 0 = 0 := by
    unfold radians
    ring
  simp only [calculate_object_coordinates, gimbalSelect, alphaXY, truthy,
    groundResult, geoSampleResult, Option.isSome_some, Option.isSome_none,
    Option.getD_some, Option.getD_none]
  norm_num [degrees, fmod, h0]

/-- Witness for `geo_result_bounds` at the sample input. -/
theorem geo_result_bounds_witness :
    (0 ≤ geoSampleResult.camera_azimuth_deg ∧
      geoSampleResult.camera_azimuth_deg < 360) ∧
    geoSampleResult.camera_elevation_deg ≤ -5 := by
  have h := geo_result_bounds ⟨960, 540, 960, 540⟩
    { latitude := some 0, longitude := some 0, altitude := some 100,
      gimbal_yaw_abs := some 0, gimbal_pitch_abs := some (-100) }
    1920 1080 geoSampleResult geoSampleResult_eval
  exact ⟨h.1, h.2.1⟩

/-- C5: the ground-intersection formula of the source is
`horizontal_distance = altitude · tan(|elevation|)`, which contradicts the
pure-nadir consistency the specification states (and its own look-forward
scenario, which expects `100 · tan(60°) ≈ 173.2 m` at elevation −30°): at
elevation −30° and altitude 100 m the source computes
`100 · tan(30°) ≈ 57.7 m < 60 m`, and as the camera approaches nadir the
computed distance grows without bound instead of vanishing — at exact nadir
it evaluates `tan` at its pole. -/
theorem distance_formula_contradicts_nadir_consistency :
    (calculate_object_coordinates ⟨960, 540, 960, 540⟩
        { latitude := some 0, longitude := some 0, altitude := some 100,
          gimbal_yaw_abs := some 0, gimbal_pitch_abs := some (-30) }
        1920 1080).map GeoResult.estimated_ground_distance_m
      = some (100 * Real.tan (radians 30)) ∧
    100 * Real.tan (radians 30) < 60 := by
  constructor
  · simp only [calculate_object_coordinates, gimbalSelect, alphaXY, truthy,
      groundResult, Option.isSome_some, Option.isSome_none,
      Option.getD_some, Option.getD_none]
    norm_num [degrees, fmod]
  · have hrad : radians 30 = π / 6 := by
      unfold radians
      ring
    have hsq : (5 / 3 : ℝ) < Real.sqrt 3 := by
      rw [show ((5 / 3 : ℝ) < Real.sqrt 3) ↔ (5 / 3 : ℝ) ^ 2 < 3 from
        Real.lt_sqrt (by norm_num)]
      norm_num
    have hs0 : (0 : ℝ) < Real.sqrt 3 := by positivity
    rw [hrad, Real.tan_eq_sin_div_cos, Real.sin_pi_div_six, Real.cos_pi_div_six]
    have key : 100 * ((1 : ℝ) / 2 / (Real.sqrt 3 / 2)) = 100 / Real.sqrt 3 := by
      field_simp
    rw [key, div_lt_iff₀ hs0]
    nlinarith

end Geo

namespace Geo

/-- Counterexample for C4 as stated: a record carrying `gimbal_roll_abs`
(and nothing else gimbal-related) does NOT select the absolute world-frame
path — `has_absolute` tests only `gimbal_yaw_abs` and `gimbal_pitch_abs`,
so the georeferencer falls back to nadir and reports
`gimbal_method = fallback_nadir`. -/
theorem roll_abs_only_counterexample :
    (calculate_object_coordinates ⟨960, 540, 960, 540⟩
        { latitude := some 0, longitude := some 0, altitude := some 100,
          gimbal_roll_abs := some 30 }
        1920 1080).map GeoResult.gimbal_method
      = some GimbalMethod.fallback_nadir ∧
    GimbalMethod.fallback_nadir ≠ GimbalMethod.absolute_world_frame := by
  constructor
  · simp only [calculate_object_coordinates, gimbalSelect, alphaXY, truthy,
      groundResult, Option.isSome_some, Option.isSome_none,
      Option.getD_some, Option.getD_none]
    norm_num [degrees, fmod]
  · decide

end Geo
